import Mathlib

/-!
Verification of the S3-Proxy gateway: a shallow embedding of the crypto
pipeline (internal/crypto), the HTTP replication engine (internal/api) and
the FUSE filesystem adapter (internal/fusefs), with theorems about the
properties stated in the specification.

Bytes are modelled as `Nat`, byte slices as `List Nat`.  External
collaborators (the AEAD primitives of the Go standard library and tink, the
backend SDK calls) enter as oracle parameters or as structures carrying the
behaviour the Go library documents; everything written in the repository
itself is translated directly.
-/

/-! ## String helpers (Go strings package semantics) -/

/-- Go `strings.Split` on a single-character separator, over char lists.
Always returns at least one (possibly empty) piece. -/
def splitOnChar (c : Char) : List Char → List (List Char)
  | [] => [[]]
  | h :: t =>
    let r := splitOnChar c t
    if h == c then [] :: r
    else
      match r with
      | [] => [[h]]
      | g :: gs => (h :: g) :: gs

/-- Go `strings.Split(s, sep)` for a one-character separator `c`. -/
def strSplit (s : String) (c : Char) : List String :=
  (splitOnChar c s.data).map String.mk

/-- `charsMatchAt hay pat` holds when `pat` is an initial segment of `hay`. -/
def charsMatchAt : List Char → List Char → Bool
  | _, [] => true
  | [], _ :: _ => false
  | c :: cs, p :: ps => c == p && charsMatchAt cs ps

/-- Go `strings.Contains(hay, pat)`: `pat` occurs contiguously in `hay`. -/
def charsContainSub : List Char → List Char → Bool
  | [], pat => pat.isEmpty
  | h :: t, pat => charsMatchAt (h :: t) pat || charsContainSub t pat

/-- Go `strings.Contains` on strings. -/
def strContainsSub (s pat : String) : Bool :=
  charsContainSub s.data pat.data

/-- Go `strings.HasPrefix` on strings. -/
def strStartsWithS (s pat : String) : Bool :=
  charsMatchAt s.data pat.data

/-- Go `strings.HasSuffix` on strings. -/
def strEndsWithS (s pat : String) : Bool :=
  charsMatchAt (s.data.drop (s.data.length - pat.data.length)) pat.data

/-- Go `strings.ToLower` (ASCII, as used on the error strings here). -/
def strLower (s : String) : String :=
  String.mk (s.data.map Char.toLower)

/-- Go `strings.TrimPrefix(s, "/")`. -/
def trimLeadSlash (s : String) : String :=
  if strStartsWithS s "/" then String.mk (s.data.drop 1) else s

/-- Split at the first occurrence of `c`: the Go
`strings.SplitN(s, string(c), 2)`, returned as the first piece plus the
optional remainder. -/
def breakAtChar (c : Char) : List Char → List Char × Option (List Char)
  | [] => ([], none)
  | h :: t =>
    if h == c then ([], some t)
    else
      let r := breakAtChar c t
      (h :: r.1, r.2)

/-! ## Crypto layers (internal/crypto/aes.go, chacha.go, tink.go)

The Go AEAD object (`cipher.AEAD` for AES-GCM and ChaCha20-Poly1305) is an
external primitive; it is modelled as a structure with a nonce size, a
deterministic `sealOp` and an `openD` that may reject.  The repository code
around it — drawing a fresh nonce, prepending it to the sealed box on
encrypt, splitting it off and length-checking on decrypt — is translated
directly.  Randomness is passed explicitly: each encryption receives the
byte string the RNG produced. -/

structure AEAD where
  nonceSize : Nat
  sealOp : List Nat → List Nat → List Nat
  openD : List Nat → List Nat → Option (List Nat)

/-- A crypto layer: the `Crypt` interface of internal/crypto/iface.go.
`encrypt` takes the randomness the RNG supplied for this call. -/
structure CryptLayer where
  encrypt : List Nat → List Nat → Except String (List Nat)
  decrypt : List Nat → Except String (List Nat)

/-- `AESCrypt.Encrypt` / `ChaChaCrypt.Encrypt`: fill a nonce of
`gcm.NonceSize()` bytes from the RNG (failing if the RNG does not deliver
exactly that many bytes), then `Seal(nonce, nonce, plaintext, nil)`, which
returns the nonce with the sealed box appended. -/
def aeadEncrypt (a : AEAD) (nonce pt : List Nat) : Except String (List Nat) :=
  if nonce.length = a.nonceSize then .ok (nonce ++ a.sealOp nonce pt)
  else .error "rng failure"

/-- `AESCrypt.Decrypt` / `ChaChaCrypt.Decrypt`: reject inputs shorter than
the nonce, split off the nonce, open the rest. -/
def aeadDecrypt (a : AEAD) (ct : List Nat) : Except String (List Nat) :=
  if ct.length < a.nonceSize then .error "ciphertext too short"
  else
    match a.openD (ct.take a.nonceSize) (ct.drop a.nonceSize) with
    | some pt => .ok pt
    | none => .error "message authentication failed"

/-- The AES-GCM and ChaCha20-Poly1305 layers share this exact shape. -/
def aeadLayer (a : AEAD) : CryptLayer :=
  { encrypt := aeadEncrypt a, decrypt := aeadDecrypt a }

/-- The tink AEAD handle (external): encryption consumes randomness and is
deterministic in it, decryption may reject. -/
structure TinkAEAD where
  enc : List Nat → List Nat → List Nat
  dec : List Nat → Option (List Nat)

/-- `TinkCrypt.Encrypt` / `TinkCrypt.Decrypt` delegate to the handle. -/
def tinkLayer (t : TinkAEAD) : CryptLayer :=
  { encrypt := fun r pt => .ok (t.enc r pt)
    decrypt := fun ct =>
      match t.dec ct with
      | some pt => .ok pt
      | none => .error "tink decrypt failed" }

/-- The documented contract of the external AEAD primitive: opening a box
sealed under the same nonce returns the plaintext. -/
def AEADCorrect (a : AEAD) : Prop :=
  ∀ n pt, n.length = a.nonceSize → a.openD n (a.sealOp n pt) = some pt

/-- The documented contract of the external tink handle. -/
def TinkCorrect (t : TinkAEAD) : Prop :=
  ∀ r pt, t.dec (t.enc r pt) = some pt

/-- A layer inverts its own successful encryptions. -/
def LayerInverse (l : CryptLayer) : Prop :=
  ∀ r pt ct, l.encrypt r pt = .ok ct → l.decrypt ct = .ok pt

/-- `MultiLayerCrypt.Encrypt` (internal/crypto/layers.go): apply the layers
in forward order, stopping at the first error.  `r` supplies each call of
the RNG; layer `k` of the remaining list receives `r k`. -/
def mlEncrypt : List CryptLayer → (Nat → List Nat) → List Nat → Except String (List Nat)
  | [], _, data => .ok data
  | l :: ls, r, data =>
    match l.encrypt (r 0) data with
    | .error e => .error e
    | .ok d => mlEncrypt ls (fun n => r (n + 1)) d

/-- `MultiLayerCrypt.Decrypt` (internal/crypto/layers.go): apply the layers
in reverse order (index `len-1` down to `0`), stopping at the first error. -/
def mlDecrypt : List CryptLayer → List Nat → Except String (List Nat)
  | [], data => .ok data
  | l :: ls, data =>
    match mlDecrypt ls data with
    | .error e => .error e
    | .ok d => l.decrypt d

/-- Demonstration AEAD used to instantiate general theorems: a two-byte
nonce and a sealOp that returns the plaintext unchanged. -/
def demoAEAD : AEAD :=
  { nonceSize := 2, sealOp := fun _ pt => pt, openD := fun _ ct => some ct }

/-- Demonstration tink handle: identity. -/
def demoTink : TinkAEAD :=
  { enc := fun _ pt => pt, dec := fun ct => some ct }

/-- Demonstration pipeline: an AEAD layer followed by a tink layer. -/
def demoLayers : List CryptLayer :=
  [aeadLayer demoAEAD, tinkLayer demoTink]

/-- Demonstration randomness: every RNG call yields the two bytes `[0,0]`. -/
def demoRand : Nat → List Nat := fun _ => [0, 0]

/-- Demonstration AEAD whose ciphertext is one byte longer than the
plaintext (a one-byte tag), witnessing plaintext/ciphertext size skew. -/
def tagAEAD : AEAD :=
  { nonceSize := 2
    sealOp := fun _ pt => pt ++ [0]
    openD := fun _ ct => if ct.getLast? = some 0 then some ct.dropLast else none }

/-! ## HTTP surface (internal/api/proxy.go, auth.go)

Backend SDK calls (PutObject, GetObject, HeadObject, DeleteObject) are
external; each binding carries the outcome the backend produced for its
call as an oracle field.  The fan-out of one goroutine per binding joined
by a WaitGroup is modelled as a sequential traversal of the binding list
in configuration order, and the reductions over the collected outcomes are
translated directly. -/

/-- The parts of an HTTP response the handlers set: status code, the
headers they write, the object body bytes and the plain-text error body. -/
structure HttpResponse where
  status : Nat
  contentType : Option String
  contentLength : Option Nat
  bodyBytes : List Nat
  bodyText : String
deriving DecidableEq, Repr

/-- The not-found test of handleGet and handleHead: the lowered error text
contains one of the four not-found markers. -/
def getNotFoundText (e : String) : Bool :=
  let s := strLower e
  strContainsSub s "nosuchkey" || strContainsSub s "nosuchbucket" ||
    strContainsSub s "notfound" || strContainsSub s "404"

/-- One binding as seen by handlePut: its optional pipeline, the randomness
its encryption would consume, and the PutObject outcome (`none` = upload
succeeded). -/
structure PutBinding where
  crypto : Option (List CryptLayer)
  rand : Nat → List Nat
  putObject : Option String

/-- One PUT task (the goroutine body of handlePut): encrypt when a pipeline
is present — an encryption error is sent and the upload is skipped — then
upload.  Returns the error sent on `errCh`; `none` means the task counted a
success. -/
def putTaskErr (data : List Nat) (b : PutBinding) : Option String :=
  match b.crypto with
  | some ls =>
    match mlEncrypt ls b.rand data with
    | .error e => some e
    | .ok _ => b.putObject
  | none => b.putObject

/-- The success counter of handlePut. -/
def putSuccessCount (data : List Nat) (bs : List PutBinding) : Nat :=
  (bs.filter (fun b => (putTaskErr data b).isNone)).length

/-- The `200 OK` reply of handlePut (header only, no body). -/
def putOkResp : HttpResponse :=
  { status := 200, contentType := none, contentLength := none,
    bodyBytes := [], bodyText := "" }

/-- The `502` reply of handlePut when no backend succeeded. -/
def putFailResp : HttpResponse :=
  { status := 502, contentType := none, contentLength := none,
    bodyBytes := [], bodyText := "all backends failed" }

/-- `Proxy.handlePut` reduction: after all tasks are joined, reply 200
whenever `successCount > 0` (both the partial and the total success branch
write 200), else 502.  The body has already been read; `data` is its
content. -/
def handlePut (data : List Nat) (bs : List PutBinding) : HttpResponse :=
  let successCount := putSuccessCount data bs
  if 0 < successCount then
    if successCount < bs.length then putOkResp else putOkResp
  else putFailResp

/-- One binding as seen by handleGet: optional pipeline, the GetObject
outcome (error text, or the raw stored bytes), and the `io.ReadAll` outcome
on the response body. -/
structure GetBinding where
  crypto : Option (List CryptLayer)
  getObject : Except String (List Nat)
  readErr : Option String

/-- The 200 reply of handleGet for decrypted data `d`. -/
def getOkResp (d : List Nat) : HttpResponse :=
  { status := 200, contentType := some "application/octet-stream",
    contentLength := some d.length, bodyBytes := d, bodyText := "" }

/-- The aggregated all-backends-failed message of handleGet. -/
def getFailText (errs : List String) : String :=
  "Failed to get object from all backends. Errors: " ++ String.intercalate "; " errs

/-- The loop body of `Proxy.handleGet`: try each binding in configuration
order; on GetObject error record it (counting not-found texts), on body
read error or decryption error record and advance; on first full success
reply immediately.  After the loop, 404 when the not-found count equals the
number of bindings, else 502. -/
def getLoop : List GetBinding → List String → Nat → Nat → HttpResponse
  | [], errs, nf, total =>
    { status := if nf = total then 404 else 502, contentType := none,
      contentLength := none, bodyBytes := [], bodyText := getFailText errs }
  | b :: rest, errs, nf, total =>
    match b.getObject with
    | .error e =>
      getLoop rest (errs ++ [e]) (if getNotFoundText e then nf + 1 else nf) total
    | .ok raw =>
      match b.readErr with
      | some re => getLoop rest (errs ++ [re]) nf total
      | none =>
        match b.crypto with
        | some ls =>
          match mlDecrypt ls raw with
          | .error de => getLoop rest (errs ++ [de]) nf total
          | .ok dec => getOkResp dec
        | none => getOkResp raw

/-- The 500 reply used when a logical bucket has no backends. -/
def noBackendResp : HttpResponse :=
  { status := 500, contentType := none, contentLength := none,
    bodyBytes := [], bodyText := "no backend configured" }

/-- `Proxy.handleGet`. -/
def handleGet (bs : List GetBinding) : HttpResponse :=
  if bs.isEmpty then noBackendResp
  else getLoop bs [] 0 bs.length

/-- The plaintext a GET binding would deliver, when its fetch, body read
and (if a pipeline is present) decryption all succeed. -/
def bindingPlain (b : GetBinding) : Option (List Nat) :=
  match b.getObject with
  | .error _ => none
  | .ok raw =>
    match b.readErr with
    | some _ => none
    | none =>
      match b.crypto with
      | none => some raw
      | some ls => (mlDecrypt ls raw).toOption

/-- The plaintext of the first binding that fully succeeds, in
configuration order. -/
def firstSuccess : List GetBinding → Option (List Nat)
  | [] => none
  | b :: rest =>
    match bindingPlain b with
    | some d => some d
    | none => firstSuccess rest

/-- A binding whose GetObject failed with a not-found error text. -/
def bindingNF (b : GetBinding) : Bool :=
  match b.getObject with
  | .error e => getNotFoundText e
  | .ok _ => false

/-- How many bindings failed with a not-found error text. -/
def countNF (bs : List GetBinding) : Nat :=
  (bs.filter bindingNF).length

/-- One DELETE task (the goroutine body of handleDelete), from the binding
DeleteObject outcome: a success or a `NoSuchKey` error counts the success
counter and sends `nil`; any other error is sent on `errCh` without
counting.  Result: (counted as success, error sent). -/
def delTask : Option String → Bool × Option String
  | some e => if strContainsSub e "NoSuchKey" = false then (false, some e) else (true, none)
  | none => (true, none)

/-- The success counter of handleDelete. -/
def delSuccessCount (bs : List (Option String)) : Nat :=
  ((bs.map delTask).filter (fun o => o.1)).length

/-- The real (non-NoSuchKey) errors collected from `errCh`. -/
def delRealErrors (bs : List (Option String)) : List String :=
  (bs.map delTask).filterMap (fun o => o.2)

/-- The `204 No Content` reply of handleDelete. -/
def delOkResp : HttpResponse :=
  { status := 204, contentType := none, contentLength := none,
    bodyBytes := [], bodyText := "" }

/-- The `502` reply of handleDelete carrying the first real error. -/
def delFailResp (e : String) : HttpResponse :=
  { status := 502, contentType := none, contentLength := none,
    bodyBytes := [], bodyText := "delete failed: " ++ e }

/-- `Proxy.handleDelete` reduction over the per-binding DeleteObject
outcomes: 204 when the real-error list is empty or the success counter is
positive, else 502 with the first real error. -/
def handleDelete (bs : List (Option String)) : HttpResponse :=
  if delRealErrors bs = [] ∨ 0 < delSuccessCount bs then delOkResp
  else delFailResp ((delRealErrors bs).headD "")

/-- The HeadObject metadata a backend reported. -/
structure HeadMeta where
  contentLength : Option Nat
  contentType : Option String

/-- One binding as seen by handleHead: optional pipeline, the HeadObject
outcome, and the outcome of the extra GetObject + io.ReadAll performed to
compute the decrypted size (the two failure modes lead to the identical
fallback, so they are merged into one oracle). -/
structure HeadBinding where
  crypto : Option (List CryptLayer)
  headObject : Except String HeadMeta
  fetchBody : Except String (List Nat)

/-- The suffix-based content-type table of handleHead (applied to the
object key, defaulting to the initial `application/octet-stream`). -/
def suffixContentType (key : String) : String :=
  if strEndsWithS key ".txt" then "text/plain"
  else if strEndsWithS key ".json" then "application/json"
  else if strEndsWithS key ".xml" then "application/xml"
  else if strEndsWithS key ".html" then "text/html"
  else "application/octet-stream"

/-- The decrypted-size probe of handleHead: only attempted when the binding
has a pipeline and HeadObject reported a content length; delivers the
decrypted bytes when the fetch and the decryption both succeed, otherwise
nothing (the code falls back to the encrypted size). -/
def headProbe (b : HeadBinding) (m : HeadMeta) : Option (List Nat) :=
  match b.crypto, m.contentLength with
  | some ls, some _ =>
    match b.fetchBody with
    | .ok raw => (mlDecrypt ls raw).toOption
    | .error _ => none
  | _, _ => none

/-- The `actualContentType` value of handleHead: starts at
`application/octet-stream` and is replaced by the suffix table only when
the probe succeeded on non-empty plaintext. -/
def headActualCT (key : String) (b : HeadBinding) (m : HeadMeta) : String :=
  match headProbe b m with
  | some dec => if 0 < dec.length then suffixContentType key else "application/octet-stream"
  | none => "application/octet-stream"

/-- The 200 reply handleHead emits for a binding whose HeadObject
succeeded:  Content-Type from the backend when present and non-empty, else
`actualContentType`; Content-Length replaced by the decrypted length when
the probe succeeded. -/
def headSuccessResp (key : String) (b : HeadBinding) (m : HeadMeta) : HttpResponse :=
  let contentLength :=
    match headProbe b m with
    | some dec => some dec.length
    | none => m.contentLength
  let ct :=
    match m.contentType with
    | some s => if s ≠ "" then s else headActualCT key b m
    | none => headActualCT key b m
  { status := 200, contentType := some ct, contentLength := contentLength,
    bodyBytes := [], bodyText := "" }

/-- The aggregated all-backends-failed message of handleHead. -/
def headFailText (errs : List String) : String :=
  "Failed to head object from all backends. Errors: " ++ String.intercalate "; " errs

/-- The loop body of `Proxy.handleHead`: same binding order and not-found
accounting as handleGet; the first binding whose HeadObject succeeds
produces the reply. -/
def headLoop (key : String) : List HeadBinding → List String → Nat → Nat → HttpResponse
  | [], errs, nf, total =>
    { status := if nf = total then 404 else 502, contentType := none,
      contentLength := none, bodyBytes := [], bodyText := headFailText errs }
  | b :: rest, errs, nf, total =>
    match b.headObject with
    | .error e =>
      headLoop key rest (errs ++ [e]) (if getNotFoundText e then nf + 1 else nf) total
    | .ok m => headSuccessResp key b m

/-- `Proxy.handleHead`. -/
def handleHead (key : String) (bs : List HeadBinding) : HttpResponse :=
  if bs.isEmpty then noBackendResp
  else headLoop key bs [] 0 bs.length

/-- The first binding whose HeadObject succeeded, with its metadata. -/
def firstHead : List HeadBinding → Option (HeadBinding × HeadMeta)
  | [] => none
  | b :: rest =>
    match b.headObject with
    | .ok m => some (b, m)
    | .error _ => firstHead rest

/-! ## Authentication and dispatch (internal/api/auth.go, proxy.go) -/

/-- The authentication configuration of the proxy: the configured scheme
literal (`headerFormat`) and the allowed access keys (`p.auth`). -/
structure AuthCfg where
  headerFormat : String
  keys : List String

/-- `AuthenticateRequest`: the Authorization header (Go `Header.Get` gives
the empty string when the header is absent) is split on spaces; the first
token must equal the configured scheme, the second must be
`Credential=<ACCESSKEY>/...`, and the extracted access key must be in the
allowed set. -/
def AuthenticateRequest (cfg : AuthCfg) (authHeader : String) : Except String Unit :=
  if authHeader = "" then .error "missing Authorization header"
  else if cfg.headerFormat = "" then .error "no authorization header format configured"
  else
    let parts := strSplit authHeader ' '
    if parts.length < 2 ∨ parts.headD "" ≠ cfg.headerFormat then
      .error ("invalid Authorization header format, expected " ++ cfg.headerFormat)
    else
      let credentialParts := strSplit (parts.getD 1 "") '='
      if credentialParts.length < 2 ∨ strStartsWithS (credentialParts.headD "") "Credential" = false then
        .error "invalid credential format"
      else
        let credential := strSplit (credentialParts.getD 1 "") '/'
        if credential.length < 1 then .error "invalid credential structure"
        else if cfg.keys.contains (credential.headD "") then .ok ()
        else .error "invalid access key"

/-- Where `ServeHTTP` sends a request. -/
inductive Routed
  | healthz
  | unauthorized (msg : String)
  | putReq (bucket key : String)
  | getReq (bucket key : String)
  | headReq (bucket key : String)
  | deleteReq (bucket key : String)
  | passthrough
deriving DecidableEq, Repr

/-- The proxy configuration `ServeHTTP` consults: the names of the
configured logical buckets and the authentication configuration. -/
structure ProxyCfg where
  buckets : List String
  auth : AuthCfg

/-- The routing part of `ServeHTTP` after authentication: strip one leading
slash, split into bucket and key at the first remaining slash, and route by
method when the bucket is configured and the key is non-empty; everything
else goes to the passthrough proxy. -/
def routeAfterAuth (p : ProxyCfg) (method path : String) : Routed :=
  let parsed := breakAtChar '/' (trimLeadSlash path).data
  let strBucket := String.mk parsed.1
  let strKey := String.mk (parsed.2.getD [])
  if p.buckets.contains strBucket ∧ strKey ≠ "" then
    if method = "PUT" ∨ method = "POST" then .putReq strBucket strKey
    else if method = "GET" then .getReq strBucket strKey
    else if method = "HEAD" then .headReq strBucket strKey
    else if method = "DELETE" then .deleteReq strBucket strKey
    else .passthrough
  else .passthrough

/-- `Proxy.ServeHTTP`: GET /healthz bypasses authentication; every other
request is authenticated and, on failure, answered 401 without reaching a
handler. -/
def serveRoute (p : ProxyCfg) (method path authHeader : String) : Routed :=
  if method = "GET" ∧ path = "/healthz" then .healthz
  else
    match AuthenticateRequest p.auth authHeader with
    | .error e => .unauthorized e
    | .ok _ => routeAfterAuth p method path

/-! ## Filesystem adapter (internal/fusefs/s3fs.go) -/

/-- The errno values the adapter returns. -/
inductive Errno
  | eNOENT
  | eACCES
  | eEXIST
  | eIOerr
  | eNOTEMPTY
  | eNOTDIR
  | eSPIPE
  | eBADF
deriving DecidableEq, Repr

/-- `mapS3Error` on the backend error text (the typed SDK cases of the Go
switch map the same named errors to the same errnos as the string
fallback, so only the string form is modelled). -/
def mapS3Error (e : String) : Errno :=
  if strContainsSub e "NoSuchBucket" then .eNOENT
  else if strContainsSub e "NoSuchKey" then .eNOENT
  else if strContainsSub e "AccessDenied" then .eACCES
  else if strContainsSub e "Forbidden" then .eACCES
  else if strContainsSub e "InvalidAccessKeyId" then .eACCES
  else if strContainsSub e "SignatureDoesNotMatch" then .eACCES
  else if strContainsSub e "BucketAlreadyExists" then .eEXIST
  else if strContainsSub e "ObjectNotInActiveTierError" then .eACCES
  else .eIOerr

/-- `S3FileHandle.Write`: reject non-writable handles; append at the end of
the buffer, pad with zero bytes when writing past the end, and refuse
back-seek writes with ESPIPE.  Returns the new buffer contents and the
reported written size (`bytes.Buffer.Write` itself never fails). -/
def fhWrite (writable : Bool) (buf : List Nat) (off : Nat) (d : List Nat) :
    List Nat × Except Errno Nat :=
  if writable = false then (buf, .error .eBADF)
  else
    let currentSize := buf.length
    if off ≠ currentSize then
      if currentSize < off then
        ((buf ++ List.replicate (off - currentSize) 0) ++ d, .ok d.length)
      else (buf, .error .eSPIPE)
    else (buf ++ d, .ok d.length)

/-- The decryption step of `S3FileHandle.Read`: decrypt when the filesystem
has a pipeline (mapCryptoError turns any failure into EIO), else pass the
fetched bytes through. -/
def decryptOf (crypto : Option (List CryptLayer)) (raw : List Nat) :
    Except Errno (List Nat) :=
  match crypto with
  | some ls =>
    match mlDecrypt ls raw with
    | .error _ => .error .eIOerr
    | .ok d => .ok d
  | none => .ok raw

/-- `S3FileHandle.Read`: a dirty handle with a buffer answers from the
buffer, clamping the requested `[off, off+sz)` window to the buffer length;
otherwise the object is fetched (`getRes` is the body the backend returned
for the request the code issued — a range request when no pipeline is
present, the whole object otherwise), decrypted when a pipeline is present,
and the window is clamped to the resulting data the same way. -/
def fhRead (dirty hasData : Bool) (buf : List Nat)
    (crypto : Option (List CryptLayer)) (getRes : Except String (List Nat))
    (off sz : Nat) : Except Errno (List Nat) :=
  if dirty ∧ hasData then
    if buf.length ≤ off then .ok []
    else .ok ((buf.drop off).take (min (off + sz) buf.length - off))
  else
    match getRes with
    | .error e => .error (mapS3Error e)
    | .ok raw =>
      match decryptOf crypto raw with
      | .error er => .error er
      | .ok data =>
        if data.length ≤ off then .ok []
        else .ok ((data.drop off).take (min (off + sz) data.length - off))

/-- `S3FileHandle.Flush`: nothing to do unless the handle is writable,
dirty and has a buffer; otherwise encrypt the buffer when a pipeline is
present (EIO on failure), upload it (`putErr` is the PutObject outcome) and
re-cache the metadata with the buffer (plaintext) length.  Returns the
uploaded bytes and the size written into the metadata cache. -/
def fhFlush (writable dirty : Bool) (buf : Option (List Nat))
    (crypto : Option (List CryptLayer)) (rand : Nat → List Nat)
    (putErr : Option String) : Except Errno (Option (List Nat × Nat)) :=
  if writable = false ∨ dirty = false then .ok none
  else
    match buf with
    | none => .ok none
    | some data =>
      let uploadE : Except Errno (List Nat) :=
        match crypto with
        | some ls =>
          match mlEncrypt ls rand data with
          | .error _ => .error .eIOerr
          | .ok enc => .ok enc
        | none => .ok data
      match uploadE with
      | .error er => .error er
      | .ok up =>
        match putErr with
        | some e => .error (mapS3Error e)
        | none => .ok (some (up, data.length))

/-- `S3Node.Attr` for a file node: a valid cache entry answers directly; a
cache miss performs HeadObject (`headRes` carries its ContentLength on
success), reports that length and inserts it into the metadata cache.
Returns the reported size and the size inserted into the cache, if any. -/
def s3NodeAttr (isDir : Bool) (cachedSize : Option Nat)
    (headRes : Except String Nat) : Except Errno (Nat × Option Nat) :=
  if isDir then .ok (0, none)
  else
    match cachedSize with
    | some s => .ok (s, none)
    | none =>
      match headRes with
      | .error e => .error (mapS3Error e)
      | .ok len => .ok (len, some len)

/-- `ListObjectsV2(Prefix, MaxKeys)` of the backend: the store is the
bucket content listed in ascending key order (the order S3 returns); the
call delivers at most `maxKeys` of the keys carrying the prefix. -/
def listObjectsV2 (store : List String) (pre : String) (maxKeys : Nat) : List String :=
  (store.filter (fun k => strStartsWithS k pre)).take maxKeys

/-- `S3Node.Remove`: for a directory request, list the prefix with
MaxKeys 1, count the listed objects other than the marker itself, refuse
with ENOTEMPTY when the count is positive, else delete the marker; for a
file request, delete the object.  `deleteErr` is the DeleteObject outcome;
the store after a successful delete drops the deleted key. -/
def s3NodeRemove (store : List String) (nodeIsDir : Bool) (nodeKey name : String)
    (reqDir : Bool) (deleteErr : Option String) : Except Errno (List String) :=
  if nodeIsDir = false then .error .eNOTDIR
  else
    let targetKey := if nodeKey = "" then name else nodeKey ++ name
    if reqDir then
      let dirKey := targetKey ++ "/"
      let contents := listObjectsV2 store dirKey 1
      let nonEmptyCount := (contents.filter (fun k => k ≠ dirKey)).length
      if 0 < nonEmptyCount then .error .eNOTEMPTY
      else
        match deleteErr with
        | some e => .error (mapS3Error e)
        | none => .ok (store.filter (fun k => k ≠ dirKey))
    else
      match deleteErr with
      | some e => .error (mapS3Error e)
      | none => .ok (store.filter (fun k => k ≠ targetKey))

/-! ## Concrete instances used by counterexamples and witnesses -/

/-- A GET binding with no pipeline that fetches the single byte `[9]`. -/
def demoGetBinding : GetBinding :=
  { crypto := none, getObject := .ok [9], readErr := none }

/-- A HEAD binding with no pipeline whose backend reported length 7 and no
content type. -/
def demoHeadBinding : HeadBinding :=
  { crypto := none
    headObject := .ok { contentLength := some 7, contentType := none }
    fetchBody := .error "not fetched" }

/-- A proxy configuration whose configured scheme literal is empty. -/
def emptySchemeCfg : ProxyCfg :=
  { buckets := ["b"], auth := { headerFormat := "", keys := ["K1"] } }

/-- A proxy configuration with scheme `AWS4-HMAC-SHA256` and key `K1`. -/
def demoCfg : ProxyCfg :=
  { buckets := ["vault"], auth := { headerFormat := "AWS4-HMAC-SHA256", keys := ["K1"] } }

/-- A PUT binding with no pipeline whose upload succeeds. -/
def demoPutBinding : PutBinding :=
  { crypto := none, rand := fun _ => [], putObject := none }

/-- An Authorization header whose scheme token is empty (a single leading
space) with a well-formed Credential parameter. -/
def emptySchemeHdr : String := " Credential=K1/d/r/s3/req"

/-- A well-formed Authorization header for `demoCfg`. -/
def demoAuthHeader : String := "AWS4-HMAC-SHA256 Credential=K1/d"

theorem aeadLayer_inverse (a : AEAD) (h : AEADCorrect a) :
    LayerInverse (aeadLayer a) := by
  intro r pt ct henc
  have henc' : aeadEncrypt a r pt = .ok ct := henc
  unfold aeadEncrypt at henc'
  by_cases hr : r.length = a.nonceSize
  · rw [if_pos hr] at henc'
    cases henc'
    show aeadDecrypt a (r ++ a.sealOp r pt) = .ok pt
    unfold aeadDecrypt
    have hlen : (r ++ a.sealOp r pt).length = a.nonceSize + (a.sealOp r pt).length := by
      simp [List.length_append, hr]
    rw [if_neg (by rw [hlen]; omega)]
    have htake : (r ++ a.sealOp r pt).take a.nonceSize = r := by
      rw [← hr]; exact List.take_left r _
    have hdrop : (r ++ a.sealOp r pt).drop a.nonceSize = a.sealOp r pt := by
      rw [← hr]; exact List.drop_left r _
    rw [htake, hdrop, h r pt hr]
  · rw [if_neg hr] at henc'
    cases henc'

theorem tinkLayer_inverse (t : TinkAEAD) (h : TinkCorrect t) :
    LayerInverse (tinkLayer t) := by
  intro r pt ct henc
  unfold tinkLayer at henc ⊢
  simp only at henc
  cases henc
  simp only [h r pt]

theorem mlRoundTrip (ls : List CryptLayer) (hinv : ∀ l ∈ ls, LayerInverse l) :
    ∀ (r : Nat → List Nat) (x ct : List Nat),
      mlEncrypt ls r x = .ok ct → mlDecrypt ls ct = .ok x := by
  induction ls with
  | nil =>
    intro r x ct h
    simp only [mlEncrypt] at h
    cases h
    rfl
  | cons l ls ih =>
    intro r x ct h
    have hl : LayerInverse l := hinv l (List.Mem.head _)
    have hls : ∀ l' ∈ ls, LayerInverse l' := fun l' hm => hinv l' (List.Mem.tail _ hm)
    unfold mlEncrypt at h
    cases he : l.encrypt (r 0) x with
    | error e => rw [he] at h; cases h
    | ok d =>
      rw [he] at h
      have hdec := ih hls _ _ _ h
      unfold mlDecrypt
      rw [hdec]
      exact hl _ _ _ he

/-- Claim C1: for every crypto pipeline built from AES-GCM,
ChaCha20-Poly1305 or tink layers (each satisfying its external
library contract) and every byte slice `x`, decrypting a successful
encryption of `x` returns exactly `x`: `Decrypt` applies the layers in
reverse of the order `Encrypt` applied them, so the composition is the
identity on the plaintext. -/
theorem MultiLayerCrypt_encrypt_decrypt_roundtrip
    (ls : List CryptLayer)
    (hls : ∀ l ∈ ls, (∃ a, l = aeadLayer a ∧ AEADCorrect a) ∨
                     (∃ t, l = tinkLayer t ∧ TinkCorrect t))
    (r : Nat → List Nat) (x ct : List Nat)
    (henc : mlEncrypt ls r x = .ok ct) :
    mlDecrypt ls ct = .ok x := by
  refine mlRoundTrip ls ?_ r x ct henc
  intro l hm
  rcases hls l hm with ⟨a, rfl, ha⟩ | ⟨t, rfl, ht⟩
  · exact aeadLayer_inverse a ha
  · exact tinkLayer_inverse t ht

/-- Witness for C1: a concrete two-layer pipeline encrypting `[1,2,3]` to
`[0,0,1,2,3]` decrypts back to `[1,2,3]`. -/
theorem MultiLayerCrypt_roundtrip_witness :
    mlDecrypt demoLayers [0, 0, 1, 2, 3] = .ok [1, 2, 3] := by
  refine MultiLayerCrypt_encrypt_decrypt_roundtrip demoLayers ?_ demoRand [1, 2, 3] _ rfl
  intro l hm
  cases hm with
  | head => exact Or.inl ⟨demoAEAD, rfl, fun n pt _ => rfl⟩
  | tail _ hm =>
    cases hm with
    | head => exact Or.inr ⟨demoTink, rfl, fun r pt => rfl⟩
    | tail _ hm => cases hm

theorem putSuccess_pos_iff (data : List Nat) (bs : List PutBinding) :
    0 < putSuccessCount data bs ↔ ∃ b ∈ bs, putTaskErr data b = none := by
  unfold putSuccessCount
  rw [← List.countP_eq_length_filter _ bs, List.countP_pos_iff]
  constructor
  · rintro ⟨b, hb, hp⟩
    exact ⟨b, hb, Option.isNone_iff_eq_none.mp hp⟩
  · rintro ⟨b, hb, hp⟩
    exact ⟨b, hb, by rw [hp]; rfl⟩

/-- Claim C2: after all per-binding upload tasks of a PUT complete, the
response status is 200 when at least one task succeeded — even when other
tasks failed to encrypt or to upload — and 502 when zero tasks
succeeded. -/
theorem handlePut_success_policy (data : List Nat) (bs : List PutBinding) :
    ((∃ b ∈ bs, putTaskErr data b = none) → handlePut data bs = putOkResp) ∧
    ((∀ b ∈ bs, putTaskErr data b ≠ none) → handlePut data bs = putFailResp) := by
  constructor
  · intro hex
    unfold handlePut
    rw [if_pos ((putSuccess_pos_iff data bs).mpr hex)]
    split <;> rfl
  · intro hall
    unfold handlePut
    rw [if_neg]
    intro hpos
    obtain ⟨b, hb, hp⟩ := (putSuccess_pos_iff data bs).mp hpos
    exact hall b hb hp

/-- Witness for C2: one binding whose upload succeeds yields 200. -/
theorem handlePut_success_policy_witness :
    handlePut [5] [demoPutBinding] = putOkResp :=
  (handlePut_success_policy [5] [demoPutBinding]).1
    ⟨demoPutBinding, List.mem_singleton_self demoPutBinding, rfl⟩

/-- Claim C4: a DeleteObject error containing `NoSuchKey` is treated as a
success; the reply is 204 whenever the success counter is positive or the
real-error list is empty, and otherwise 502 carrying the first real error;
in particular, when every binding reports success or `NoSuchKey` — as on a
second DELETE of the same key — the reply is 204. -/
theorem handleDelete_idempotent_policy :
    (∀ e, strContainsSub e "NoSuchKey" = true → delTask (some e) = (true, none)) ∧
    (∀ bs, delRealErrors bs = [] ∨ 0 < delSuccessCount bs → handleDelete bs = delOkResp) ∧
    (∀ bs e rest, delSuccessCount bs = 0 → delRealErrors bs = e :: rest →
      handleDelete bs = delFailResp e) ∧
    (∀ bs, (∀ o ∈ bs, ∀ e, o = some e → strContainsSub e "NoSuchKey" = true) →
      handleDelete bs = delOkResp) := by
  refine ⟨?_, ?_, ?_, ?_⟩
  · intro e he
    simp [delTask, he]
  · intro bs h
    unfold handleDelete
    rw [if_pos h]
  · intro bs e rest h0 hcons
    unfold handleDelete
    rw [if_neg (by
      rintro (h | h)
      · rw [hcons] at h; cases h
      · omega), hcons]
    rfl
  · intro bs hall
    have hreal : delRealErrors bs = [] := by
      unfold delRealErrors
      rw [List.filterMap_eq_nil_iff]
      intro o ho
      obtain ⟨x, hx, rfl⟩ := List.mem_map.mp ho
      cases x with
      | none => rfl
      | some e =>
        have he := hall (some e) hx e rfl
        simp [delTask, he]
    unfold handleDelete
    rw [if_pos (Or.inl hreal)]

/-- Witness for C4: a single binding whose delete fails with a NoSuchKey
error still gets 204. -/
theorem handleDelete_policy_witness :
    handleDelete [some "NoSuchKey"] = delOkResp :=
  handleDelete_idempotent_policy.2.2.2 [some "NoSuchKey"] (by
    intro o ho e he
    rw [List.mem_singleton] at ho
    subst ho
    cases he
    decide)

/-- Claim C7: a write of `d` at offset `off` on a writable handle whose
buffer holds `buf`: appended when `off` equals the buffer length, appended
after zero padding when `off` is larger, rejected with ESPIPE — leaving the
buffer unchanged — when `off` is smaller. -/
theorem s3FileHandle_write_cases (buf : List Nat) (off : Nat) (d : List Nat) :
    (off = buf.length → fhWrite true buf off d = (buf ++ d, .ok d.length)) ∧
    (buf.length < off →
      fhWrite true buf off d =
        ((buf ++ List.replicate (off - buf.length) 0) ++ d, .ok d.length)) ∧
    (off < buf.length → fhWrite true buf off d = (buf, .error .eSPIPE)) := by
  refine ⟨?_, ?_, ?_⟩ <;> intro h
  · simp [fhWrite, h]
  · have h1 : off ≠ buf.length := by omega
    simp [fhWrite, h1, h]
  · have h1 : off ≠ buf.length := by omega
    have h2 : ¬ buf.length < off := by omega
    simp [fhWrite, h1, h2]

/-- Witness for C7: the three write cases at concrete buffers. -/
theorem s3FileHandle_write_witness :
    fhWrite true [1] 1 [2] = ([1, 2], .ok 1) ∧
    fhWrite true [1] 3 [9] = ([1, 0, 0, 9], .ok 1) ∧
    fhWrite true [1, 2] 0 [9] = ([1, 2], .error .eSPIPE) :=
  ⟨(s3FileHandle_write_cases [1] 1 [2]).1 rfl,
   (s3FileHandle_write_cases [1] 3 [9]).2.1 (by decide),
   (s3FileHandle_write_cases [1, 2] 0 [9]).2.2 (by decide)⟩

theorem clampWindow (l : List Nat) (off sz : Nat) :
    (if l.length ≤ off then (Except.ok [] : Except Errno (List Nat))
     else .ok ((l.drop off).take (min (off + sz) l.length - off))) =
    .ok ((l.drop off).take sz) := by
  by_cases h : l.length ≤ off
  · rw [if_pos h, List.drop_eq_nil_of_le h, List.take_nil]
  · rw [if_neg h]
    have hlen : (l.drop off).length = l.length - off := List.length_drop off l
    have : (l.drop off).take (min (off + sz) l.length - off) = (l.drop off).take sz := by
      rw [List.take_eq_take, hlen]
      omega
    rw [this]

/-- Claim C10: a read on a dirty handle answers from the buffer, a read on
a clean handle answers from the fetched (and, with a pipeline, decrypted)
data; in both cases an offset at or past the end succeeds with empty data,
and a window extending past the end is truncated to the end — both
captured by `(avail.drop off).take sz`. -/
theorem s3FileHandle_read_clamp :
    (∀ (buf : List Nat) (crypto : Option (List CryptLayer))
       (g : Except String (List Nat)) (off sz : Nat),
       fhRead true true buf crypto g off sz = .ok ((buf.drop off).take sz)) ∧
    (∀ (buf : List Nat) (crypto : Option (List CryptLayer))
       (g : Except String (List Nat)) (off sz : Nat),
       buf.length ≤ off → fhRead true true buf crypto g off sz = .ok []) ∧
    (∀ (hasData : Bool) (buf : List Nat) (crypto : Option (List CryptLayer))
       (g : Except String (List Nat)) (raw data : List Nat) (off sz : Nat),
       g = .ok raw → decryptOf crypto raw = .ok data →
       fhRead false hasData buf crypto g off sz = .ok ((data.drop off).take sz)) ∧
    (∀ (hasData : Bool) (buf : List Nat) (crypto : Option (List CryptLayer))
       (g : Except String (List Nat)) (raw data : List Nat) (off sz : Nat),
       g = .ok raw → decryptOf crypto raw = .ok data → data.length ≤ off →
       fhRead false hasData buf crypto g off sz = .ok []) := by
  have hdirty : ∀ (buf : List Nat) (crypto : Option (List CryptLayer))
      (g : Except String (List Nat)) (off sz : Nat),
      fhRead true true buf crypto g off sz = .ok ((buf.drop off).take sz) := by
    intro buf crypto g off sz
    unfold fhRead
    rw [if_pos ⟨rfl, rfl⟩]
    exact clampWindow buf off sz
  have hclean : ∀ (hasData : Bool) (buf : List Nat) (crypto : Option (List CryptLayer))
      (g : Except String (List Nat)) (raw data : List Nat) (off sz : Nat),
      g = .ok raw → decryptOf crypto raw = .ok data →
      fhRead false hasData buf crypto g off sz = .ok ((data.drop off).take sz) := by
    intro hasData buf crypto g raw data off sz hg hd
    unfold fhRead
    rw [if_neg (fun hc => by cases hc.1)]
    rw [hg]
    simp only [hd]
    exact clampWindow data off sz
  refine ⟨hdirty, ?_, hclean, ?_⟩
  · intro buf crypto g off sz h
    rw [hdirty buf crypto g off sz, List.drop_eq_nil_of_le h, List.take_nil]
  · intro hasData buf crypto g raw data off sz hg hd h
    rw [hclean hasData buf crypto g raw data off sz hg hd,
      List.drop_eq_nil_of_le h, List.take_nil]

/-- Witness for C10: a dirty-buffer read truncated at the end, and a clean
read entirely past the end returning empty data. -/
theorem s3FileHandle_read_clamp_witness :
    fhRead true true [1, 2, 3] none (.error "x") 1 5 = .ok [2, 3] ∧
    fhRead false false [] none (.ok [1, 2, 3]) 5 2 = .ok [] :=
  ⟨s3FileHandle_read_clamp.1 [1, 2, 3] none (.error "x") 1 5,
   s3FileHandle_read_clamp.2.2.2 false [] none (.ok [1, 2, 3]) [1, 2, 3] [1, 2, 3] 5 2
     rfl rfl (by decide)⟩

theorem countNF_cons (b : GetBinding) (rest : List GetBinding) :
    countNF (b :: rest) = (if bindingNF b then 1 else 0) + countNF rest := by
  unfold countNF
  rw [List.filter_cons]
  by_cases hb : bindingNF b
  · rw [if_pos hb, if_pos hb, List.length_cons]
    omega
  · rw [if_neg hb, if_neg hb]
    omega

theorem countNF_le (bs : List GetBinding) : countNF bs ≤ bs.length :=
  List.length_filter_le bindingNF bs

theorem countNF_eq_iff (bs : List GetBinding) :
    countNF bs = bs.length ↔ ∀ b ∈ bs, bindingNF b = true := by
  induction bs with
  | nil => simp [countNF]
  | cons b rest ih =>
    rw [countNF_cons, List.length_cons]
    by_cases hb : bindingNF b = true
    · rw [if_pos hb]
      constructor
      · intro h x hx
        rcases List.mem_cons.mp hx with rfl | hx'
        · exact hb
        · exact ih.mp (by omega) x hx'
      · intro h
        have := ih.mpr (fun x hx => h x (List.mem_cons_of_mem _ hx))
        omega
    · rw [if_neg hb]
      constructor
      · intro h
        have := countNF_le rest
        omega
      · intro h
        exact absurd (h b (List.mem_cons_self _ _)) hb

theorem getLoop_success :
    ∀ (bs : List GetBinding) (errs : List String) (nf total : Nat) (d : List Nat),
      firstSuccess bs = some d → getLoop bs errs nf total = getOkResp d := by
  intro bs
  induction bs with
  | nil => intro errs nf total d h; cases h
  | cons b rest ih =>
    intro errs nf total d h
    unfold firstSuccess at h
    unfold getLoop
    cases hg : b.getObject with
    | error e =>
      simp only [bindingPlain, hg] at h
      simp only [hg]
      exact ih _ _ _ _ h
    | ok raw =>
      cases hr : b.readErr with
      | some re =>
        simp only [bindingPlain, hg, hr] at h
        simp only [hg, hr]
        exact ih _ _ _ _ h
      | none =>
        cases hc : b.crypto with
        | none =>
          simp only [bindingPlain, hg, hr, hc] at h
          simp only [hg, hr, hc]
          cases h
          rfl
        | some ls =>
          cases hd : mlDecrypt ls raw with
          | error de =>
            simp only [bindingPlain, hg, hr, hc, hd, Except.toOption] at h
            simp only [hg, hr, hc, hd]
            exact ih _ _ _ _ h
          | ok dec =>
            simp only [bindingPlain, hg, hr, hc, hd, Except.toOption] at h
            simp only [hg, hr, hc, hd]
            cases h
            rfl

theorem getLoop_fail :
    ∀ (bs : List GetBinding) (errs : List String) (nf total : Nat),
      firstSuccess bs = none →
      (getLoop bs errs nf total).status = if nf + countNF bs = total then 404 else 502 := by
  intro bs
  induction bs with
  | nil =>
    intro errs nf total h
    simp [getLoop, countNF]
  | cons b rest ih =>
    intro errs nf total h
    unfold firstSuccess at h
    unfold getLoop
    rw [countNF_cons]
    cases hg : b.getObject with
    | error e =>
      simp only [bindingPlain, hg] at h
      have hbNF : bindingNF b = getNotFoundText e := by unfold bindingNF; rw [hg]
      simp only [hg]
      rw [ih _ _ _ h, hbNF]
      by_cases hnf : getNotFoundText e = true
      · rw [if_pos hnf, if_pos hnf]
        have : nf + 1 + countNF rest = nf + (1 + countNF rest) := by omega
        rw [this]
      · rw [if_neg hnf, if_neg hnf]
        have : nf + (0 + countNF rest) = nf + countNF rest := by omega
        rw [this]
    | ok raw =>
      have hbNF : bindingNF b = false := by unfold bindingNF; rw [hg]
      rw [hbNF]
      simp only [Bool.false_eq_true, if_false, Nat.zero_add]
      cases hr : b.readErr with
      | some re =>
        simp only [bindingPlain, hg, hr] at h
        simp only [hg, hr]
        exact ih _ _ _ h
      | none =>
        cases hc : b.crypto with
        | none =>
          simp only [bindingPlain, hg, hr, hc] at h
          cases h
        | some ls =>
          cases hd : mlDecrypt ls raw with
          | error de =>
            simp only [bindingPlain, hg, hr, hc, hd, Except.toOption] at h
            simp only [hg, hr, hc, hd]
            exact ih _ _ _ h
          | ok dec =>
            simp only [bindingPlain, hg, hr, hc, hd, Except.toOption] at h
            cases h

/-- Claim C3: a GET tries the bindings sequentially in configuration order;
the first binding whose fetch, body read and (with a pipeline) decryption
succeed determines the response — status 200, Content-Type
application/octet-stream, Content-Length the decrypted length, body the
decrypted bytes; when no binding succeeds the status is 404 when every
binding failed with a not-found GetObject error and 502 otherwise (a
decryption failure advances to the next binding and never counts as
not-found, since only GetObject errors are counted). -/
theorem handleGet_first_success_policy (bs : List GetBinding) (hne : bs ≠ []) :
    (∀ d, firstSuccess bs = some d → handleGet bs = getOkResp d) ∧
    (firstSuccess bs = none →
      (handleGet bs).status = if ∀ b ∈ bs, bindingNF b = true then 404 else 502) := by
  have hempty : bs.isEmpty = false := by
    cases bs with
    | nil => exact absurd rfl hne
    | cons x xs => rfl
  constructor
  · intro d h
    unfold handleGet
    rw [hempty]
    exact getLoop_success bs [] 0 bs.length d h
  · intro h
    unfold handleGet
    rw [hempty, if_neg Bool.false_ne_true]
    rw [getLoop_fail bs [] 0 bs.length h, Nat.zero_add]
    by_cases hall : ∀ b ∈ bs, bindingNF b = true
    · rw [if_pos ((countNF_eq_iff bs).mpr hall), if_pos hall]
    · rw [if_neg (fun hc => hall ((countNF_eq_iff bs).mp hc)), if_neg hall]

/-- Witness for C3: a single binding with no pipeline delivering `[9]`
produces the 200 response with Content-Length 1. -/
theorem handleGet_policy_witness :
    handleGet [demoGetBinding] = getOkResp [9] :=
  (handleGet_first_success_policy [demoGetBinding] (List.cons_ne_nil _ _)).1 [9] rfl

theorem headLoop_first :
    ∀ (key : String) (bs : List HeadBinding) (errs : List String) (nf total : Nat)
      (b : HeadBinding) (m : HeadMeta), firstHead bs = some (b, m) →
      headLoop key bs errs nf total = headSuccessResp key b m := by
  intro key bs
  induction bs with
  | nil => intro errs nf total b m h; cases h
  | cons b0 rest ih =>
    intro errs nf total b m h
    unfold firstHead at h
    unfold headLoop
    cases hh : b0.headObject with
    | ok m0 =>
      simp only [hh] at h
      simp only [hh]
      cases h
      rfl
    | error e =>
      simp only [hh] at h
      simp only [hh]
      exact ih _ _ _ _ _ h

/-- Counterexample for C5: with no crypto pipeline, a successful HEAD of
`data.json` whose backend reported no Content-Type emits
`application/octet-stream`, not the suffix-derived `application/json`. -/
theorem handleHead_contentType_counterexample :
    (handleHead "data.json" [demoHeadBinding]).contentType =
      some "application/octet-stream" ∧
    demoHeadBinding.crypto = none ∧
    demoHeadBinding.headObject = .ok { contentLength := some 7, contentType := none } ∧
    suffixContentType "data.json" = "application/json" ∧
    "application/octet-stream" ≠ "application/json" := by
  exact ⟨rfl, rfl, rfl, rfl, by decide⟩

/-- Claim C5 as amended: on a successful HEAD whose backend supplied no (or
an empty) Content-Type, the emitted Content-Type is `headActualCT`: the
suffix-derived type only when the binding has a pipeline, the backend
reported a length, the size probe fetched and decrypted successfully and
the plaintext is non-empty; in every other case — in particular whenever
the binding has no pipeline — it is `application/octet-stream`. -/
theorem handleHead_contentType_amended (key : String) (bs : List HeadBinding)
    (b : HeadBinding) (m : HeadMeta) (hf : firstHead bs = some (b, m))
    (hct : m.contentType = none ∨ m.contentType = some "") :
    (handleHead key bs).contentType = some (headActualCT key b m) ∧
    (b.crypto = none → headActualCT key b m = "application/octet-stream") ∧
    (∀ dec, headProbe b m = some dec → 0 < dec.length →
      headActualCT key b m = suffixContentType key) := by
  have hne : bs.isEmpty = false := by
    cases bs with
    | nil => cases hf
    | cons x xs => rfl
  refine ⟨?_, ?_, ?_⟩
  · unfold handleHead
    rw [hne, if_neg Bool.false_ne_true]
    rw [headLoop_first key bs [] 0 bs.length b m hf]
    unfold headSuccessResp
    rcases hct with hx | hx <;> simp [hx]
  · intro hc
    unfold headActualCT headProbe
    simp only [hc]
  · intro dec hp hlen
    unfold headActualCT
    simp only [hp]
    rw [if_pos hlen]

/-- Witness for C5 (amended): a pipeline-free binding emits
octet-stream even for a `.txt` key. -/
theorem handleHead_contentType_witness :
    (handleHead "x.txt" [demoHeadBinding]).contentType =
      some "application/octet-stream" :=
  (handleHead_contentType_amended "x.txt" [demoHeadBinding] demoHeadBinding
    { contentLength := some 7, contentType := none } rfl (Or.inl rfl)).1

theorem serveRoute_eq (p : ProxyCfg) (method path h : String)
    (hnh : ¬(method = "GET" ∧ path = "/healthz")) :
    serveRoute p method path h =
      match AuthenticateRequest p.auth h with
      | .error e => .unauthorized e
      | .ok _ => routeAfterAuth p method path := by
  unfold serveRoute
  rw [if_neg hnh]

theorem routeAfterAuth_ne_unauthorized (p : ProxyCfg) (method path : String) :
    ∀ msg, routeAfterAuth p method path ≠ .unauthorized msg := by
  intro msg hc
  simp only [routeAfterAuth] at hc
  split at hc
  · split at hc
    · cases hc
    · split at hc
      · cases hc
      · split at hc
        · cases hc
        · split at hc
          · cases hc
          · cases hc
  · cases hc

theorem splitOnChar_ne_nil (c : Char) (l : List Char) : splitOnChar c l ≠ [] := by
  induction l with
  | nil => simp [splitOnChar]
  | cons h t ih =>
    simp only [splitOnChar]
    split
    · exact List.cons_ne_nil _ _
    · split
      · exact List.cons_ne_nil _ _
      · exact List.cons_ne_nil _ _

theorem strSplit_ne_nil (s : String) (c : Char) : strSplit s c ≠ [] := by
  unfold strSplit
  cases hsp : splitOnChar c s.data with
  | nil => exact absurd hsp (splitOnChar_ne_nil c s.data)
  | cons a t => simp

/-- Counterexample for C6: with an empty configured scheme literal, a
request whose scheme token matches (both empty), whose Credential parameter
is well-formed and whose access key is allowed is still rejected 401. -/
theorem serveRoute_empty_scheme_counterexample :
    serveRoute emptySchemeCfg "GET" "/b/k" emptySchemeHdr =
      .unauthorized "no authorization header format configured" ∧
    (strSplit emptySchemeHdr ' ').headD "" = emptySchemeCfg.auth.headerFormat ∧
    strStartsWithS ((strSplit ((strSplit emptySchemeHdr ' ').getD 1 "") '=').headD "")
      "Credential" = true ∧
    emptySchemeCfg.auth.keys.contains
      ((strSplit ((strSplit ((strSplit emptySchemeHdr ' ').getD 1 "") '=').getD 1 "") '/').headD "")
      = true ∧
    ¬("GET" = "GET" ∧ "/b/k" = "/healthz") :=
  ⟨rfl, rfl, rfl, rfl, fun hc => absurd hc.2 (by decide)⟩

/-- Claim C6 as amended: every request other than GET /healthz is answered
401 — reaching no handler — when the header is absent, the scheme token
differs from the configured literal, the header lacks a second token, the
Credential parameter is malformed, or the extracted access key is not
allowed; when the configured scheme literal is non-empty, the scheme
matches, the Credential parameter parses and the key is allowed,
authentication succeeds and dispatch proceeds to the routing logic (which
never answers 401).  With an empty configured scheme literal every such
request is rejected 401. -/
theorem serveRoute_auth_amended (p : ProxyCfg) (method path h : String)
    (hnh : ¬(method = "GET" ∧ path = "/healthz")) :
    (h = "" → ∃ msg, serveRoute p method path h = .unauthorized msg) ∧
    ((strSplit h ' ').headD "" ≠ p.auth.headerFormat →
      ∃ msg, serveRoute p method path h = .unauthorized msg) ∧
    ((strSplit h ' ').length < 2 →
      ∃ msg, serveRoute p method path h = .unauthorized msg) ∧
    ((strSplit ((strSplit h ' ').getD 1 "") '=').length < 2 ∨
        strStartsWithS ((strSplit ((strSplit h ' ').getD 1 "") '=').headD "") "Credential" = false →
      ∃ msg, serveRoute p method path h = .unauthorized msg) ∧
    (p.auth.keys.contains
        ((strSplit ((strSplit ((strSplit h ' ').getD 1 "") '=').getD 1 "") '/').headD "") = false →
      ∃ msg, serveRoute p method path h = .unauthorized msg) ∧
    (p.auth.headerFormat ≠ "" → h ≠ "" →
      2 ≤ (strSplit h ' ').length →
      (strSplit h ' ').headD "" = p.auth.headerFormat →
      2 ≤ (strSplit ((strSplit h ' ').getD 1 "") '=').length →
      strStartsWithS ((strSplit ((strSplit h ' ').getD 1 "") '=').headD "") "Credential" = true →
      p.auth.keys.contains
        ((strSplit ((strSplit ((strSplit h ' ').getD 1 "") '=').getD 1 "") '/').headD "") = true →
      serveRoute p method path h = routeAfterAuth p method path) ∧
    (∀ msg, routeAfterAuth p method path ≠ .unauthorized msg) := by
  have hser := serveRoute_eq p method path h hnh
  have mk : ∀ e, AuthenticateRequest p.auth h = .error e →
      ∃ msg, serveRoute p method path h = .unauthorized msg := by
    intro e he
    exact ⟨e, by rw [hser, he]⟩
  refine ⟨?_, ?_, ?_, ?_, ?_, ?_, routeAfterAuth_ne_unauthorized p method path⟩
  · intro h0
    exact mk _ (by simp only [AuthenticateRequest]; rw [if_pos h0])
  · intro hneq
    by_cases h0 : h = ""
    · exact mk _ (by simp only [AuthenticateRequest]; rw [if_pos h0])
    · by_cases h1 : p.auth.headerFormat = ""
      · exact mk _ (by simp only [AuthenticateRequest]; rw [if_neg h0, if_pos h1])
      · exact mk _ (by
          simp only [AuthenticateRequest]
          rw [if_neg h0, if_neg h1, if_pos (Or.inr hneq)])
  · intro hlt
    by_cases h0 : h = ""
    · exact mk _ (by simp only [AuthenticateRequest]; rw [if_pos h0])
    · by_cases h1 : p.auth.headerFormat = ""
      · exact mk _ (by simp only [AuthenticateRequest]; rw [if_neg h0, if_pos h1])
      · exact mk _ (by
          simp only [AuthenticateRequest]
          rw [if_neg h0, if_neg h1, if_pos (Or.inl hlt)])
  · intro hcred
    by_cases h0 : h = ""
    · exact mk _ (by simp only [AuthenticateRequest]; rw [if_pos h0])
    · by_cases h1 : p.auth.headerFormat = ""
      · exact mk _ (by simp only [AuthenticateRequest]; rw [if_neg h0, if_pos h1])
      · by_cases h2 : (strSplit h ' ').length < 2 ∨ (strSplit h ' ').headD "" ≠ p.auth.headerFormat
        · exact mk _ (by
            simp only [AuthenticateRequest]
            rw [if_neg h0, if_neg h1, if_pos h2])
        · exact mk _ (by
            simp only [AuthenticateRequest]
            rw [if_neg h0, if_neg h1, if_neg h2, if_pos hcred])
  · intro hkey
    by_cases h0 : h = ""
    · exact mk _ (by simp only [AuthenticateRequest]; rw [if_pos h0])
    · by_cases h1 : p.auth.headerFormat = ""
      · exact mk _ (by simp only [AuthenticateRequest]; rw [if_neg h0, if_pos h1])
      · by_cases h2 : (strSplit h ' ').length < 2 ∨ (strSplit h ' ').headD "" ≠ p.auth.headerFormat
        · exact mk _ (by
            simp only [AuthenticateRequest]
            rw [if_neg h0, if_neg h1, if_pos h2])
        · by_cases h3 : (strSplit ((strSplit h ' ').getD 1 "") '=').length < 2 ∨
              strStartsWithS ((strSplit ((strSplit h ' ').getD 1 "") '=').headD "") "Credential" = false
          · exact mk _ (by
              simp only [AuthenticateRequest]
              rw [if_neg h0, if_neg h1, if_neg h2, if_pos h3])
          · by_cases h4 : (strSplit ((strSplit ((strSplit h ' ').getD 1 "") '=').getD 1 "") '/').length < 1
            · exact mk _ (by
                simp only [AuthenticateRequest]
                rw [if_neg h0, if_neg h1, if_neg h2, if_neg h3, if_pos h4])
            · exact mk _ (by
                simp only [AuthenticateRequest]
                rw [if_neg h0, if_neg h1, if_neg h2, if_neg h3, if_neg h4,
                  if_neg (by rw [hkey]; exact Bool.false_ne_true)])
  · intro hf0 hh0 hl2 hsch hcl2 hstart hkey
    have hok : AuthenticateRequest p.auth h = .ok () := by
      simp only [AuthenticateRequest]
      rw [if_neg hh0, if_neg hf0]
      rw [if_neg (by
        rintro (hc | hc)
        · omega
        · exact hc hsch)]
      rw [if_neg (by
        rintro (hc | hc)
        · omega
        · rw [hstart] at hc; cases hc)]
      rw [if_neg (by
        have := List.length_pos.mpr
          (strSplit_ne_nil ((strSplit ((strSplit h ' ').getD 1 "") '=').getD 1 "") '/')
        omega)]
      rw [if_pos hkey]
    rw [hser, hok]

/-- Witness for C6 (amended): a well-formed header with an allowed key on
the demo configuration routes a GET to the GET handler. -/
theorem serveRoute_auth_witness :
    serveRoute demoCfg "GET" "/vault/hello" demoAuthHeader =
      routeAfterAuth demoCfg "GET" "/vault/hello" ∧
    routeAfterAuth demoCfg "GET" "/vault/hello" = .getReq "vault" "hello" :=
  ⟨(serveRoute_auth_amended demoCfg "GET" "/vault/hello" demoAuthHeader
      (fun hc => absurd hc.2 (by decide))).2.2.2.2.2.1
      (by decide) (by decide) (by decide) (by decide) (by decide) (by decide) (by decide),
   rfl⟩

/-- Claim C8 (code bug): on a store holding the explicit directory marker
`d/` and a child `d/x` (in ascending key order), rmdir of `d` lists with
MaxKeys 1, sees only the marker, counts zero non-marker objects, deletes
the marker and reports success — although the directory contains a
non-marker object, which the specification says must yield ENOTEMPTY with
nothing deleted. -/
theorem s3Node_rmdir_maxkeys_bug :
    s3NodeRemove ["d/", "d/x"] true "" "d" true none = .ok ["d/x"] ∧
    strStartsWithS "d/x" "d/" = true ∧ "d/x" ≠ "d/" :=
  ⟨rfl, rfl, by decide⟩

/-- Counterexample for C9: a one-layer pipeline with a two-byte nonce and a
one-byte tag stores the 3-byte plaintext `[1,2,3]` as 6 ciphertext bytes;
an Attr cache miss inserts the HeadObject-reported stored length 6 into the
metadata cache, which is not the plaintext length 3. -/
theorem attr_cache_encrypted_size_counterexample :
    mlEncrypt [aeadLayer tagAEAD] demoRand [1, 2, 3] = .ok [0, 0, 1, 2, 3, 0] ∧
    s3NodeAttr false none (.ok 6) = .ok (6, some 6) ∧
    (6 : Nat) ≠ [1, 2, 3].length :=
  ⟨rfl, rfl, by decide⟩

/-- Claim C9 as amended: a flush inserts the plaintext (buffer) length into
the metadata cache, while an Attr cache miss inserts the ContentLength the
backend reported — the stored, possibly encrypted, length. -/
theorem cache_size_amended :
    (∀ (data : List Nat) (crypto : Option (List CryptLayer)) (rand : Nat → List Nat)
       (putErr : Option String) (up : List Nat) (c : Nat),
       fhFlush true true (some data) crypto rand putErr = .ok (some (up, c)) →
       c = data.length) ∧
    (∀ (hl sz : Nat) (ins : Option Nat),
       s3NodeAttr false none (.ok hl) = .ok (sz, ins) → sz = hl ∧ ins = some hl) := by
  constructor
  · intro data crypto rand putErr up c h
    unfold fhFlush at h
    rw [if_neg (by rintro (hc | hc) <;> cases hc)] at h
    cases crypto with
    | none =>
      dsimp only at h
      cases putErr with
      | some e => cases h
      | none =>
        cases h
        rfl
    | some ls =>
      dsimp only at h
      cases he : mlEncrypt ls rand data with
      | error e =>
        rw [he] at h
        cases h
      | ok enc =>
        rw [he] at h
        cases putErr with
        | some e => cases h
        | none =>
          cases h
          rfl
  · intro hl sz ins h
    unfold s3NodeAttr at h
    rw [if_neg Bool.false_ne_true] at h
    dsimp only at h
    cases h
    exact ⟨rfl, rfl⟩

/-- Witness for C9 (amended): flushing the buffer `[1,2,3]` through the
tagging pipeline uploads 6 bytes but caches size 3. -/
theorem cache_size_amended_witness :
    fhFlush true true (some [1, 2, 3]) (some [aeadLayer tagAEAD]) demoRand none =
      .ok (some ([0, 0, 1, 2, 3, 0], 3)) ∧
    (3 : Nat) = [1, 2, 3].length :=
  ⟨rfl, cache_size_amended.1 [1, 2, 3] (some [aeadLayer tagAEAD]) demoRand none
    [0, 0, 1, 2, 3, 0] 3 rfl⟩
